import Mathlib

/-!
Verification of the Announcements Service (`src/backend/routers/announcements.py`).

The module is embedded shallowly: dates are `Date` records (mirroring Python
`datetime.date`), stored documents carry their date fields as BSON values
(missing / null / string, as MongoDB does), and each HTTP handler becomes a
pure function from the collaborator state (teacher directory, document store)
and the request data to a response-or-error plus the resulting store.
-/

namespace Announcements

/-- A decimal digit character, `digitChar n = chr (48 + n)` for `n < 10`. -/
def digitChar (n : Nat) : Char := Char.ofNat (48 + n)

/-- Fixed-width decimal rendering, most significant digit first:
`padDigits w n` is the `w`-character zero-padded decimal of `n < 10 ^ w`.
Mirrors Python `date.isoformat`, which zero-pads year/month/day. -/
def padDigits : Nat → Nat → List Char
  | 0, _ => []
  | w + 1, n => digitChar (n / 10 ^ w) :: padDigits w (n % 10 ^ w)

/-- Strict lexicographic order on character lists by code point, the order
MongoDB uses for `$gte`/`$lte` on (UTF-8) strings. -/
def lexLt : List Char → List Char → Bool
  | _, [] => false
  | [], _ :: _ => true
  | a :: as, b :: bs =>
    if a.toNat < b.toNat then true
    else if a = b then lexLt as bs
    else false

/-- `lexLe a b` : `a` is at or before `b` in MongoDB string order. -/
def lexLe (a b : List Char) : Bool := !(lexLt b a)

theorem digitChar_toNat (n : Nat) (h : n < 10) : (digitChar n).toNat = 48 + n := by
  interval_cases n <;> decide

theorem lexLt_irrefl (l : List Char) : lexLt l l = false := by
  induction l with
  | nil => rfl
  | cons a as ih => simp [lexLt, ih]

theorem lexLt_ne {l1 l2 : List Char} (h : lexLt l1 l2 = true) : l1 ≠ l2 := by
  intro he
  rw [he, lexLt_irrefl] at h
  exact Bool.false_ne_true h

/-- Division-with-remainder decomposition of `<` on `Nat`. -/
theorem lt_iff_div_mod (k a b : Nat) (hk : 0 < k) :
    a < b ↔ (a / k < b / k ∨ (a / k = b / k ∧ a % k < b % k)) := by
  constructor
  · intro hab
    rcases Nat.lt_trichotomy (a / k) (b / k) with h | h | h
    · exact Or.inl h
    · refine Or.inr ⟨h, ?_⟩
      have ha := Nat.div_add_mod a k
      have hb := Nat.div_add_mod b k
      have : k * (a / k) + a % k < k * (b / k) + b % k := by
        rw [ha, hb]; exact hab
      rw [h] at this
      exact Nat.lt_of_add_lt_add_left this
    · exfalso
      have hb2 : b < k * (b / k) + k := by
        conv_lhs => rw [← Nat.div_add_mod b k]
        exact Nat.add_lt_add_left (Nat.mod_lt b hk) _
      have hstep : k * (b / k) + k = k * (b / k + 1) := by ring
      have hle : k * (b / k + 1) ≤ k * (a / k) :=
        Nat.mul_le_mul_left k (Nat.succ_le_of_lt h)
      have hak2 : k * (a / k) ≤ a := by
        conv_rhs => rw [← Nat.div_add_mod a k]
        exact Nat.le_add_right _ _
      have : b < a := lt_of_lt_of_le hb2 (le_trans (le_of_eq hstep) (le_trans hle hak2))
      exact absurd hab (Nat.not_lt.mpr (Nat.le_of_lt this))
  · intro h
    rcases h with h | ⟨he, hm⟩
    · have hb2 : a < k * (a / k) + k := by
        conv_lhs => rw [← Nat.div_add_mod a k]
        exact Nat.add_lt_add_left (Nat.mod_lt a hk) _
      have hstep : k * (a / k) + k = k * (a / k + 1) := by ring
      have hle : k * (a / k + 1) ≤ k * (b / k) :=
        Nat.mul_le_mul_left k (Nat.succ_le_of_lt h)
      have hbk : k * (b / k) ≤ b := by
        conv_rhs => rw [← Nat.div_add_mod b k]
        exact Nat.le_add_right _ _
      exact lt_of_lt_of_le hb2 (le_trans (le_of_eq hstep) (le_trans hle hbk))
    · have ha := Nat.div_add_mod a k
      have hb := Nat.div_add_mod b k
      calc a = k * (a / k) + a % k := ha.symm
        _ < k * (a / k) + b % k := Nat.add_lt_add_left hm _
        _ = k * (b / k) + b % k := by rw [he]
        _ = b := hb

/-- Lexicographic comparison of equal-width zero-padded decimals agrees with
numeric comparison. -/
theorem lexLt_padDigits (w : Nat) : ∀ a b : Nat, a < 10 ^ w → b < 10 ^ w →
    lexLt (padDigits w a) (padDigits w b) = decide (a < b) := by
  induction w with
  | zero =>
    intro a b ha hb
    simp only [pow_zero, Nat.lt_one_iff] at ha hb
    subst ha; subst hb
    rfl
  | succ w ih =>
    intro a b ha hb
    have hpow : (0 : Nat) < 10 ^ w := Nat.pos_pow_of_pos w (by norm_num)
    have hps : (10 : Nat) ^ (w + 1) = 10 * 10 ^ w := by ring
    have hqa : a / 10 ^ w < 10 := by
      rw [Nat.div_lt_iff_lt_mul hpow]
      omega
    have hqb : b / 10 ^ w < 10 := by
      rw [Nat.div_lt_iff_lt_mul hpow]
      omega
    have hra : a % 10 ^ w < 10 ^ w := Nat.mod_lt a hpow
    have hrb : b % 10 ^ w < 10 ^ w := Nat.mod_lt b hpow
    have hsplit := lt_iff_div_mod (10 ^ w) a b hpow
    have hta := digitChar_toNat _ hqa
    have htb := digitChar_toNat _ hqb
    simp only [padDigits, lexLt]
    rcases Nat.lt_trichotomy (a / 10 ^ w) (b / 10 ^ w) with h | h | h
    · have h1 : (digitChar (a / 10 ^ w)).toNat < (digitChar (b / 10 ^ w)).toNat := by omega
      simp only [if_pos h1]
      have : a < b := hsplit.mpr (Or.inl h)
      simp [this]
    · have h1 : ¬ (digitChar (a / 10 ^ w)).toNat < (digitChar (b / 10 ^ w)).toNat := by omega
      have h2 : digitChar (a / 10 ^ w) = digitChar (b / 10 ^ w) := by rw [h]
      simp only [if_neg h1, if_pos h2]
      rw [ih _ _ hra hrb]
      by_cases hm : a % 10 ^ w < b % 10 ^ w
      · have : a < b := hsplit.mpr (Or.inr ⟨h, hm⟩)
        simp [hm, this]
      · have : ¬ a < b := by
          intro hc
          rcases hsplit.mp hc with hd | ⟨_, hm2⟩
          · omega
          · exact hm hm2
        simp [hm, this]
    · have h1 : ¬ (digitChar (a / 10 ^ w)).toNat < (digitChar (b / 10 ^ w)).toNat := by omega
      have h2 : digitChar (a / 10 ^ w) ≠ digitChar (b / 10 ^ w) := by
        intro hc
        have : (digitChar (a / 10 ^ w)).toNat = (digitChar (b / 10 ^ w)).toNat := by rw [hc]
        omega
      simp only [if_neg h1, if_neg h2]
      have : ¬ a < b := by
        intro hc
        rcases hsplit.mp hc with hd | ⟨he, _⟩
        · omega
        · omega
      simp [this]

theorem padDigits_inj (w a b : Nat) (ha : a < 10 ^ w) (hb : b < 10 ^ w)
    (h : padDigits w a = padDigits w b) : a = b := by
  rcases Nat.lt_trichotomy a b with hlt | he | hgt
  · exfalso
    have := lexLt_padDigits w a b ha hb
    rw [h, lexLt_irrefl] at this
    simp [hlt] at this
  · exact he
  · exfalso
    have := lexLt_padDigits w b a hb ha
    rw [h, lexLt_irrefl] at this
    simp [hgt] at this

theorem padDigits_length (w : Nat) : ∀ n, (padDigits w n).length = w := by
  induction w with
  | zero => intro n; rfl
  | succ w ih => intro n; simp [padDigits, ih]

/-- Splitting a lexicographic comparison across equal-length prefixes. -/
theorem lexLt_append (x1 : List Char) : ∀ (x2 : List Char) (y1 y2 : List Char),
    x1.length = x2.length →
    lexLt (x1 ++ y1) (x2 ++ y2) =
      (lexLt x1 x2 || (decide (x1 = x2) && lexLt y1 y2)) := by
  induction x1 with
  | nil =>
    intro x2 y1 y2 h
    have : x2 = [] := List.length_eq_zero.mp h.symm
    subst this
    simp [lexLt]
  | cons a as ih =>
    intro x2 y1 y2 h
    cases x2 with
    | nil => simp at h
    | cons b bs =>
      simp only [List.length_cons, Nat.succ_inj] at h
      by_cases hab : a.toNat < b.toNat
      · simp [lexLt, hab]
      · by_cases heq : a = b
        · subst heq
          have hirr : ¬ a.toNat < a.toNat := by omega
          simp only [List.cons_append, lexLt, if_neg hirr, eq_self_iff_true, if_true,
            List.append_eq]
          rw [ih bs y1 y2 h]
          by_cases he : as = bs
          · subst he; simp
          · have hne : ¬ (a :: as = a :: bs) := by
              intro hc; injection hc with _ h2; exact he h2
            simp [he, hne]
        · have hne : ¬ (a :: as = b :: bs) := by
            intro hc; injection hc with h1 _; exact heq h1
          simp [lexLt, hab, heq, hne]

/-- A calendar date, as Python `datetime.date` (year, month, day). -/
structure Date where
  year : Nat
  month : Nat
  day : Nat
deriving DecidableEq, Repr

/-- Gregorian leap year rule, mirroring Python `calendar.isleap`. -/
def isLeap (y : Nat) : Bool := y % 4 == 0 && (y % 100 != 0 || y % 400 == 0)

/-- Number of days of month `m` in year `y` (Python `calendar.monthrange`). -/
def daysInMonth (y m : Nat) : Nat :=
  if m = 2 then (if isLeap y then 29 else 28)
  else if m = 4 ∨ m = 6 ∨ m = 9 ∨ m = 11 then 30
  else 31

theorem daysInMonth_le (y m : Nat) : daysInMonth y m ≤ 31 := by
  unfold daysInMonth
  split
  · split <;> omega
  · split <;> omega

/-- The invariant `datetime.date` enforces on construction:
`MINYEAR = 1 ≤ year ≤ 9999 = MAXYEAR`, a real month and a real day. -/
def Date.valid (d : Date) : Prop :=
  1 ≤ d.year ∧ d.year ≤ 9999 ∧ 1 ≤ d.month ∧ d.month ≤ 12 ∧
    1 ≤ d.day ∧ d.day ≤ daysInMonth d.year d.month

instance : DecidablePred Date.valid := fun d => by
  unfold Date.valid
  infer_instance

/-- Boolean validity check (used by the ISO parser). -/
def Date.validB (d : Date) : Bool := decide d.valid

/-- Python `date.__lt__`: lexicographic on (year, month, day). -/
def Date.ltB (a b : Date) : Bool :=
  decide (a.year < b.year) ||
    (decide (a.year = b.year) && (decide (a.month < b.month) ||
      (decide (a.month = b.month) && decide (a.day < b.day))))

/-- Python `date.__le__`. -/
def Date.leB (a b : Date) : Bool := !(Date.ltB b a)

/-- The character list of Python `date.isoformat()`: `YYYY-MM-DD`. -/
def Date.toIsoData (d : Date) : List Char :=
  padDigits 4 d.year ++ '-' :: (padDigits 2 d.month ++ '-' :: padDigits 2 d.day)

/-- Python `date.isoformat()`. -/
def Date.toIso (d : Date) : String := String.mk d.toIsoData

/-- A decimal digit's numeric value. -/
def digitVal (c : Char) : Nat := c.toNat - 48

/-- Python `date.fromisoformat` restricted to its documented `YYYY-MM-DD`
input format: ten characters, digits and two dashes, naming a valid date;
anything else raises `ValueError`, modelled as `none`. -/
def parseIsoDate (s : String) : Option Date :=
  match s.data with
  | [c1, c2, c3, c4, c5, c6, c7, c8, c9, c10] =>
    if c1.isDigit && c2.isDigit && c3.isDigit && c4.isDigit && c5 == '-' &&
        c6.isDigit && c7.isDigit && c8 == '-' && c9.isDigit && c10.isDigit then
      let dt : Date :=
        ⟨((digitVal c1 * 10 + digitVal c2) * 10 + digitVal c3) * 10 + digitVal c4,
          digitVal c6 * 10 + digitVal c7, digitVal c9 * 10 + digitVal c10⟩
      if dt.validB then some dt else none
    else none
  | _ => none

theorem padDigits_two (n : Nat) :
    padDigits 2 n = [digitChar (n / 10), digitChar (n % 10)] := by
  simp [padDigits]

theorem padDigits_four (n : Nat) :
    padDigits 4 n = [digitChar (n / 1000), digitChar (n % 1000 / 100),
      digitChar (n % 1000 % 100 / 10), digitChar (n % 1000 % 100 % 10)] := by
  norm_num [padDigits]

theorem digitChar_isDigit (n : Nat) (h : n < 10) : (digitChar n).isDigit = true := by
  interval_cases n <;> decide

theorem digitVal_digitChar (n : Nat) (h : n < 10) : digitVal (digitChar n) = n := by
  have := digitChar_toNat n h
  unfold digitVal
  omega

/-- Lexicographic comparison of serialized dates agrees with date order. -/
theorem lexLt_toIsoData (d1 d2 : Date) (h1 : d1.valid) (h2 : d2.valid) :
    lexLt d1.toIsoData d2.toIsoData = Date.ltB d1 d2 := by
  obtain ⟨ha1, hb1, hc1, hd1, he1, hf1⟩ := h1
  obtain ⟨ha2, hb2, hc2, hd2, he2, hf2⟩ := h2
  have hy1 : d1.year < 10 ^ 4 := by norm_num; omega
  have hy2 : d2.year < 10 ^ 4 := by norm_num; omega
  have hm1 : d1.month < 10 ^ 2 := by norm_num; omega
  have hm2 : d2.month < 10 ^ 2 := by norm_num; omega
  have hdd1 : d1.day < 10 ^ 2 := by
    have := daysInMonth_le d1.year d1.month
    norm_num
    omega
  have hdd2 : d2.day < 10 ^ 2 := by
    have := daysInMonth_le d2.year d2.month
    norm_num
    omega
  unfold Date.toIsoData
  rw [lexLt_append _ _ _ _ (by rw [padDigits_length, padDigits_length])]
  rw [lexLt_padDigits 4 _ _ hy1 hy2]
  have hsep : ∀ r1 r2 : List Char, lexLt ('-' :: r1) ('-' :: r2) = lexLt r1 r2 := by
    intro r1 r2
    simp [lexLt]
  rw [hsep]
  rw [lexLt_append _ _ _ _ (by rw [padDigits_length, padDigits_length])]
  rw [lexLt_padDigits 2 _ _ hm1 hm2]
  rw [hsep]
  rw [lexLt_padDigits 2 _ _ hdd1 hdd2]
  have hpy : decide (padDigits 4 d1.year = padDigits 4 d2.year) = decide (d1.year = d2.year) := by
    by_cases h : d1.year = d2.year
    · simp [h]
    · have : padDigits 4 d1.year ≠ padDigits 4 d2.year := by
        intro hc
        exact h (padDigits_inj 4 _ _ hy1 hy2 hc)
      simp [h, this]
  have hpm : decide (padDigits 2 d1.month = padDigits 2 d2.month) =
      decide (d1.month = d2.month) := by
    by_cases h : d1.month = d2.month
    · simp [h]
    · have : padDigits 2 d1.month ≠ padDigits 2 d2.month := by
        intro hc
        exact h (padDigits_inj 2 _ _ hm1 hm2 hc)
      simp [h, this]
  rw [hpy, hpm]
  unfold Date.ltB
  rfl

/-- Serialization and ISO ordering transfer: `lexLe` of serialized dates is
`Date.leB`. -/
theorem lexLe_toIsoData (d1 d2 : Date) (h1 : d1.valid) (h2 : d2.valid) :
    lexLe d1.toIsoData d2.toIsoData = Date.leB d1 d2 := by
  unfold lexLe Date.leB
  rw [lexLt_toIsoData d2 d1 h2 h1]

/-- Round trip: parsing a serialized valid date recovers the date
(Python `date.fromisoformat(d.isoformat()) == d`). -/
theorem parseIsoDate_toIso (d : Date) (h : d.valid) : parseIsoDate d.toIso = some d := by
  obtain ⟨ha, hb, hc, hd, he, hf⟩ := h
  have hdm := daysInMonth_le d.year d.month
  have hy : d.year < 10000 := by omega
  unfold Date.toIso Date.toIsoData
  rw [padDigits_four, padDigits_two, padDigits_two]
  unfold parseIsoDate
  have h1 : d.year / 1000 < 10 := by omega
  have h2 : d.year % 1000 / 100 < 10 := by omega
  have h3 : d.year % 1000 % 100 / 10 < 10 := by omega
  have h4 : d.year % 1000 % 100 % 10 < 10 := by omega
  have h5 : d.month / 10 < 10 := by omega
  have h6 : d.month % 10 < 10 := by omega
  have h7 : d.day / 10 < 10 := by omega
  have h8 : d.day % 10 < 10 := by omega
  simp only [List.cons_append, List.nil_append,
    digitChar_isDigit _ h1, digitChar_isDigit _ h2, digitChar_isDigit _ h3,
    digitChar_isDigit _ h4, digitChar_isDigit _ h5, digitChar_isDigit _ h6,
    digitChar_isDigit _ h7, digitChar_isDigit _ h8,
    digitVal_digitChar _ h1, digitVal_digitChar _ h2, digitVal_digitChar _ h3,
    digitVal_digitChar _ h4, digitVal_digitChar _ h5, digitVal_digitChar _ h6,
    digitVal_digitChar _ h7, digitVal_digitChar _ h8, Bool.and_true, Bool.true_and,
    beq_self_eq_true, if_true]
  have hyv : ((d.year / 1000 * 10 + d.year % 1000 / 100) * 10 + d.year % 1000 % 100 / 10) * 10 +
      d.year % 1000 % 100 % 10 = d.year := by omega
  have hmv : d.month / 10 * 10 + d.month % 10 = d.month := by omega
  have hdv : d.day / 10 * 10 + d.day % 10 = d.day := by omega
  simp only [hyv, hmv, hdv]
  have hvb : (Date.mk d.year d.month d.day).validB = true := by
    unfold Date.validB
    simp [Date.valid]
    exact ⟨ha, hb, hc, hd, he, hf⟩
  simp [hvb]

/-- A BSON field value as this module can encounter it: key absent from the
document, stored `null`, or a string. -/
inductive BsonVal where
  | missing : BsonVal
  | null : BsonVal
  | str : String → BsonVal
deriving DecidableEq, Repr

/-- A document of the `announcements` collection (`oid` stands for the `_id`
key; ObjectIds are modelled as the numeric value of their 12 bytes). -/
structure StoredDoc where
  oid : Nat
  title : Option String
  message : Option String
  start_date : BsonVal
  end_date : BsonVal
deriving DecidableEq, Repr

/-- The error taxonomy of the module with its HTTP status mapping. -/
inductive ApiError where
  | unauthenticated : ApiError
  | unauthorized : ApiError
  | invalidInput : ApiError
  | notFound : ApiError
  | internalError : ApiError
deriving DecidableEq, Repr

def ApiError.status : ApiError → Nat
  | .unauthenticated => 401
  | .unauthorized => 401
  | .invalidInput => 422
  | .notFound => 404
  | .internalError => 500

/-- `_require_teacher`: `if not username` (absent or empty string is falsy)
raises 401 "Authentication required"; a username with no matching `_id` in the
teachers collection raises 401 "Invalid teacher credentials". -/
def _require_teacher (teachers : List String) (username : Option String) :
    Except ApiError Unit :=
  match username with
  | none => .error .unauthenticated
  | some u =>
    if u = "" then .error .unauthenticated
    else if teachers.contains u then .ok ()
    else .error .unauthorized

/-- `AnnouncementPayload` after FastAPI/pydantic type coercion: the field types
as declared on the model. Constraint checking is `payloadValid` below. -/
structure AnnouncementPayload where
  title : String
  message : String
  start_date : Option Date
  end_date : Date
deriving DecidableEq, Repr

/-- The pydantic constraints on `AnnouncementPayload`: `min_length`/`max_length`
on `title` and `message`, and `validate_end_date` (rejects `end < start` when a
start date is given; a `date` object is always truthy). A request body that
violates these is rejected with 422 before the handler body runs. -/
def payloadValid (p : AnnouncementPayload) : Bool :=
  decide (1 ≤ p.title.length) && decide (p.title.length ≤ 120) &&
    decide (1 ≤ p.message.length) && decide (p.message.length ≤ 800) &&
    (match p.start_date with
     | none => true
     | some s => !(Date.ltB p.end_date s))

/-- Python `str.isspace()`, the set `str.strip()` removes: the Unicode
whitespace code points (category Zs/Zl/Zp, or bidirectional class WS, B or S):
U+0009-U+000D, U+001C-U+001F, U+0020, U+0085, U+00A0, U+1680, U+2000-U+200A,
U+2028, U+2029, U+202F, U+205F, U+3000. -/
def isSpaceChar (c : Char) : Bool :=
  (0x09 ≤ c.toNat && c.toNat ≤ 0x0d) || c.toNat == 0x20 ||
    (0x1c ≤ c.toNat && c.toNat ≤ 0x1f) || c.toNat == 0x85 || c.toNat == 0xa0 ||
    c.toNat == 0x1680 || (0x2000 ≤ c.toNat && c.toNat ≤ 0x200a) ||
    c.toNat == 0x2028 || c.toNat == 0x2029 || c.toNat == 0x202f ||
    c.toNat == 0x205f || c.toNat == 0x3000

/-- Python `str.strip()`: drop leading and trailing whitespace. -/
def pyStrip (s : String) : String :=
  String.mk (((s.data.dropWhile isSpaceChar).reverse.dropWhile isSpaceChar).reverse)

/-- The dict built by `_serialize_payload`. -/
structure SerializedPayload where
  title : String
  message : String
  start_date : BsonVal
  end_date : BsonVal
deriving DecidableEq, Repr

/-- `_serialize_payload`: trim title and message, dates to ISO strings. A
payload without a start date stores an explicit `null`, not an absent key. -/
def _serialize_payload (p : AnnouncementPayload) : SerializedPayload :=
  { title := pyStrip p.title
    message := pyStrip p.message
    start_date := match p.start_date with
      | some d => BsonVal.str d.toIso
      | none => BsonVal.null
    end_date := BsonVal.str p.end_date.toIso }

/-- `_parse_optional_date`: `None` (or an absent key read back as `None`) and
the empty string are falsy and yield `None`; a string `date.fromisoformat`
rejects yields `None` through the caught `ValueError`. -/
def _parse_optional_date (v : BsonVal) : Option Date :=
  match v with
  | .missing => none
  | .null => none
  | .str s => if s = "" then none else parseIsoDate s

/-- The response model. -/
structure AnnouncementResponse where
  id : String
  title : String
  message : String
  start_date : Option Date
  end_date : Date
deriving DecidableEq, Repr

/-- A hexadecimal digit character (lowercase, as `str(ObjectId)` prints). -/
def hexDigitChar (n : Nat) : Char :=
  if n < 10 then Char.ofNat (48 + n) else Char.ofNat (87 + n)

/-- Fixed-width lowercase hexadecimal rendering. -/
def padHex : Nat → Nat → List Char
  | 0, _ => []
  | w + 1, n => hexDigitChar (n / 16 ^ w) :: padHex w (n % 16 ^ w)

/-- `str(doc["_id"])` for an ObjectId: its 24 lowercase hex characters. -/
def oidToString (oid : Nat) : String := String.mk (padHex 24 oid)

/-- `_doc_to_response` (`date.today()` is passed explicitly as `today`):
absent title/message default to `""`; a malformed or absent `end_date`
silently defaults to today. -/
def _doc_to_response (today : Date) (doc : StoredDoc) : AnnouncementResponse :=
  { id := oidToString doc.oid
    title := doc.title.getD ""
    message := doc.message.getD ""
    start_date := _parse_optional_date doc.start_date
    end_date := (_parse_optional_date doc.end_date).getD today }

/-- The `announcements` collection plus the ObjectId generator state of the
store (fresh ids come from `nextOid`). -/
structure Store where
  announcements : List StoredDoc
  nextOid : Nat
deriving DecidableEq, Repr

/-- `{"end_date": {"$gte": bound}}` on one field value: a `$gte` with a string
operand matches string values only (BSON type bracketing), so absent or null
fields never match. -/
def matchGteStr (v : BsonVal) (bound : String) : Bool :=
  match v with
  | .str s => lexLe bound.data s.data
  | _ => false

/-- The `$or` clause on `start_date`: key absent, explicit `null`, or
`$lte today_iso` (again only string values can satisfy the `$lte`). -/
def matchStartOr (v : BsonVal) (today_iso : String) : Bool :=
  match v with
  | .missing => true
  | .null => true
  | .str s => lexLe s.data today_iso.data

/-- The find filter `list_announcements` builds from its two query flags. -/
def listFilter (include_expired include_future : Bool) (today_iso : String)
    (doc : StoredDoc) : Bool :=
  if include_expired then true
  else if include_future then matchGteStr doc.end_date today_iso
  else matchGteStr doc.end_date today_iso && matchStartOr doc.start_date today_iso

/-- Mongo `.sort("end_date", 1)` key comparison: null/absent sort before all
strings, strings lexicographically. -/
def endDateLe (a b : StoredDoc) : Bool :=
  match a.end_date, b.end_date with
  | .str s1, .str s2 => lexLe s1.data s2.data
  | .str _, _ => false
  | _, _ => true

def orderedInsert (d : StoredDoc) : List StoredDoc → List StoredDoc
  | [] => [d]
  | e :: es => if endDateLe d e then d :: e :: es else e :: orderedInsert d es

def sortByEndDate : List StoredDoc → List StoredDoc
  | [] => []
  | d :: ds => orderedInsert d (sortByEndDate ds)

/-- The documents the list endpoint's cursor yields, in order. -/
def list_docs (store : Store) (include_expired include_future : Bool)
    (today : Date) : List StoredDoc :=
  sortByEndDate
    (store.announcements.filter (listFilter include_expired include_future today.toIso))

/-- `list_announcements` (GET): find with the flag-dependent filter, sort
ascending by `end_date`, convert each document to a response. -/
def list_announcements (store : Store) (include_expired include_future : Bool)
    (today : Date) : List AnnouncementResponse :=
  (list_docs store include_expired include_future today).map (_doc_to_response today)

/-- `find_one({"_id": oid})`. -/
def findOne (docs : List StoredDoc) (oid : Nat) : Option StoredDoc :=
  docs.find? (fun d => d.oid == oid)

/-- The document `insert_one(_serialize_payload(payload))` writes. -/
def insertedDoc (ser : SerializedPayload) (oid : Nat) : StoredDoc :=
  { oid := oid
    title := some ser.title
    message := some ser.message
    start_date := ser.start_date
    end_date := ser.end_date }

/-- `create_announcement` (POST). FastAPI validates the body before the handler
body runs (422 on constraint violation whatever the credential); then
`_require_teacher`, then `insert_one` followed by a read-back (`None` there is
the 500 path). -/
def create_announcement (teachers : List String) (store : Store)
    (payload : AnnouncementPayload) (teacher_username : Option String)
    (today : Date) : Except ApiError AnnouncementResponse × Store :=
  if !payloadValid payload then (.error .invalidInput, store)
  else match _require_teacher teachers teacher_username with
  | .error e => (.error e, store)
  | .ok _ =>
    match findOne (store.announcements ++
        [insertedDoc (_serialize_payload payload) store.nextOid]) store.nextOid with
    | none => (.error .internalError,
        ⟨store.announcements ++ [insertedDoc (_serialize_payload payload) store.nextOid],
          store.nextOid + 1⟩)
    | some created => (.ok (_doc_to_response today created),
        ⟨store.announcements ++ [insertedDoc (_serialize_payload payload) store.nextOid],
          store.nextOid + 1⟩)

/-- A character `bytes.fromhex` accepts. -/
def isHexChar (c : Char) : Bool :=
  c.isDigit || ('a' ≤ c && c ≤ 'f') || ('A' ≤ c && c ≤ 'F')

def hexCharVal (c : Char) : Nat :=
  if c.isDigit then c.toNat - 48
  else if 'a' ≤ c && c ≤ 'f' then c.toNat - 87
  else c.toNat - 55

/-- `ObjectId(announcement_id)`: a syntactically valid store identifier is
exactly 24 hexadecimal characters; anything else raises `InvalidId`, which the
handlers turn into 404. -/
def parseObjectId (s : String) : Option Nat :=
  if s.data.length = 24 && s.data.all isHexChar then
    some (s.data.foldl (fun acc c => 16 * acc + hexCharVal c) 0)
  else none

/-- `{"$set": serialized}` on a document: full replace of the four payload
fields, `_id` untouched. -/
def applySet (ser : SerializedPayload) (doc : StoredDoc) : StoredDoc :=
  { doc with
    title := some ser.title
    message := some ser.message
    start_date := ser.start_date
    end_date := ser.end_date }

/-- `find_one_and_update({"_id": oid}, {"$set": ser}, ReturnDocument.AFTER)`:
update the first matching document, returning the post-update document. -/
def findOneAndUpdate (docs : List StoredDoc) (oid : Nat) (ser : SerializedPayload) :
    Option StoredDoc × List StoredDoc :=
  match docs with
  | [] => (none, [])
  | d :: ds =>
    if d.oid = oid then (some (applySet ser d), applySet ser d :: ds)
    else
      let r := findOneAndUpdate ds oid ser
      (r.fst, d :: r.snd)

/-- `delete_one({"_id": oid})`: remove the first matching document; the flag is
`deleted_count == 1`. -/
def deleteOne (docs : List StoredDoc) (oid : Nat) : Bool × List StoredDoc :=
  match docs with
  | [] => (false, [])
  | d :: ds =>
    if d.oid = oid then (true, ds)
    else
      let r := deleteOne ds oid
      (r.fst, d :: r.snd)

/-- `update_announcement` (PUT): body validation (framework), auth, ObjectId
parse (404 on `InvalidId`), atomic find-and-update (404 when no match). -/
def update_announcement (teachers : List String) (store : Store)
    (announcement_id : String) (payload : AnnouncementPayload)
    (teacher_username : Option String) (today : Date) :
    Except ApiError AnnouncementResponse × Store :=
  if !payloadValid payload then (.error .invalidInput, store)
  else match _require_teacher teachers teacher_username with
  | .error e => (.error e, store)
  | .ok _ =>
    match parseObjectId announcement_id with
    | none => (.error .notFound, store)
    | some oid =>
      let r := findOneAndUpdate store.announcements oid (_serialize_payload payload)
      match r.fst with
      | none => (.error .notFound, store)
      | some updated => (.ok (_doc_to_response today updated), ⟨r.snd, store.nextOid⟩)

/-- `delete_announcement` (DELETE): auth, ObjectId parse (404 on `InvalidId`),
`delete_one` (404 when `deleted_count == 0`); success returns the confirmation
message, modelled as `Unit`. -/
def delete_announcement (teachers : List String) (store : Store)
    (announcement_id : String) (teacher_username : Option String) :
    Except ApiError Unit × Store :=
  match _require_teacher teachers teacher_username with
  | .error e => (.error e, store)
  | .ok _ =>
    match parseObjectId announcement_id with
    | none => (.error .notFound, store)
    | some oid =>
      let r := deleteOne store.announcements oid
      if r.fst then (.ok (), ⟨r.snd, store.nextOid⟩)
      else (.error .notFound, store)

/-- An announcement at the date level; its `toDoc` image is the shape of
documents this module itself writes. Used to state the list claims. -/
structure Announcement where
  oid : Nat
  title : String
  message : String
  start_date : Option Date
  end_date : Date
deriving DecidableEq, Repr

def Announcement.datesValid (a : Announcement) : Prop :=
  (Date.validB a.end_date &&
    (match a.start_date with
     | none => true
     | some s => Date.validB s)) = true

instance : DecidablePred Announcement.datesValid := fun a =>
  inferInstanceAs (Decidable ((Date.validB a.end_date &&
    (match a.start_date with
     | none => true
     | some s => Date.validB s)) = true))

theorem Announcement.datesValid_end {a : Announcement} (h : a.datesValid) :
    a.end_date.valid := by
  unfold Announcement.datesValid at h
  rw [Bool.and_eq_true] at h
  exact of_decide_eq_true h.1

theorem Announcement.datesValid_start {a : Announcement} (h : a.datesValid) :
    ∀ s, a.start_date = some s → s.valid := by
  intro s hs
  unfold Announcement.datesValid at h
  rw [Bool.and_eq_true] at h
  have h2 := h.2
  rw [hs] at h2
  exact of_decide_eq_true h2

/-- The stored form of a date-level announcement (what `_serialize_payload`
plus `insert_one` produces for it). -/
def Announcement.toDoc (a : Announcement) : StoredDoc :=
  { oid := a.oid
    title := some a.title
    message := some a.message
    start_date := match a.start_date with
      | some s => BsonVal.str s.toIso
      | none => BsonVal.null
    end_date := BsonVal.str a.end_date.toIso }

deriving instance DecidableEq for Except

/-- A stored field value `_parse_optional_date` maps to `None`: key absent,
null, empty string, or a string that is not a parseable ISO-8601 date. -/
def badDateField (v : BsonVal) : Prop :=
  v = BsonVal.missing ∨ v = BsonVal.null ∨
    ∃ s, v = BsonVal.str s ∧ (s = "" ∨ parseIsoDate s = none)

theorem parse_optional_date_of_bad (v : BsonVal) (h : badDateField v) :
    _parse_optional_date v = none := by
  rcases h with h | h | ⟨s, hs, h⟩
  · rw [h]; rfl
  · rw [h]; rfl
  · subst hs
    rcases h with h | h
    · subst h; rfl
    · simp only [_parse_optional_date]
      by_cases he : s = ""
      · simp [he]
      · simp [he, h]

end Announcements

namespace Announcements

/-- C9: a stored document whose `end_date` is missing, empty or unparseable is
converted to a response whose `end_date` is today rather than an error, and a
malformed stored `start_date` likewise becomes absent rather than an error. -/
theorem c9_malformed_dates_default (today : Date) (doc : StoredDoc) :
    (badDateField doc.end_date → (_doc_to_response today doc).end_date = today) ∧
      (badDateField doc.start_date → (_doc_to_response today doc).start_date = none) := by
  constructor
  · intro h
    unfold _doc_to_response
    rw [parse_optional_date_of_bad _ h]
    rfl
  · intro h
    unfold _doc_to_response
    rw [parse_optional_date_of_bad _ h]

/-- Witness for C9 at a concrete document with an unparseable `end_date` and
an empty `start_date`. -/
theorem c9_malformed_dates_default_witness :
    (_doc_to_response ⟨2026, 10, 12⟩ ⟨5, some "t", some "m", BsonVal.str "",
        BsonVal.str "not-a-date"⟩).end_date = ⟨2026, 10, 12⟩ ∧
      (_doc_to_response ⟨2026, 10, 12⟩ ⟨5, some "t", some "m", BsonVal.str "",
        BsonVal.str "not-a-date"⟩).start_date = none := by
  have h := c9_malformed_dates_default ⟨2026, 10, 12⟩
    ⟨5, some "t", some "m", BsonVal.str "", BsonVal.str "not-a-date"⟩
  exact ⟨h.1 (Or.inr (Or.inr ⟨"not-a-date", rfl, Or.inr (by decide)⟩)),
    h.2 (Or.inr (Or.inr ⟨"", rfl, Or.inl rfl⟩))⟩

/-- C3: a payload whose `end_date` is strictly before its `start_date` is
rejected by both create and update with `InvalidInput` (HTTP 422), and the
store is unchanged. -/
theorem c3_end_before_start_invalid (teachers : List String) (store : Store)
    (p : AnnouncementPayload) (username : Option String) (today : Date)
    (announcement_id : String) (s : Date) (hs : p.start_date = some s)
    (hlt : Date.ltB p.end_date s = true) :
    create_announcement teachers store p username today =
        (.error .invalidInput, store) ∧
      update_announcement teachers store announcement_id p username today =
        (.error .invalidInput, store) ∧
      ApiError.invalidInput.status = 422 := by
  have hpv : payloadValid p = false := by
    simp [payloadValid, hs, hlt]
  refine ⟨?_, ?_, rfl⟩
  · unfold create_announcement
    rw [hpv]
    rfl
  · unfold update_announcement
    rw [hpv]
    rfl

/-- Witness for C3 at a concrete inverted date range. -/
theorem c3_end_before_start_invalid_witness :
    create_announcement ["alice"] ⟨[], 0⟩
        ⟨"Exam", "Midterm", some ⟨2026, 10, 12⟩, ⟨2026, 10, 11⟩⟩
        (some "alice") ⟨2026, 10, 12⟩ = (.error .invalidInput, ⟨[], 0⟩) := by
  exact (c3_end_before_start_invalid ["alice"] ⟨[], 0⟩
    ⟨"Exam", "Midterm", some ⟨2026, 10, 12⟩, ⟨2026, 10, 11⟩⟩
    (some "alice") ⟨2026, 10, 12⟩ "x" ⟨2026, 10, 12⟩ rfl (by decide)).1

/-- C10: payload validation precedes the credential check: an invalid payload
is answered with `InvalidInput` (HTTP 422) for every value of
`teacher_username`, including absent and unknown ones, and a 401 can only
arise for payloads that pass validation. -/
theorem c10_validation_precedes_auth (teachers : List String) (store : Store)
    (p : AnnouncementPayload) (today : Date) (announcement_id : String)
    (hp : payloadValid p = false) :
    ∀ username : Option String,
      create_announcement teachers store p username today =
          (.error .invalidInput, store) ∧
        update_announcement teachers store announcement_id p username today =
          (.error .invalidInput, store) ∧
        ApiError.invalidInput.status = 422 ∧
        (∀ e : ApiError,
          (create_announcement teachers store p username today).fst = .error e →
            e.status ≠ 401) := by
  intro username
  have hc : create_announcement teachers store p username today =
      (.error .invalidInput, store) := by
    unfold create_announcement
    rw [hp]
    rfl
  have hu : update_announcement teachers store announcement_id p username today =
      (.error .invalidInput, store) := by
    unfold update_announcement
    rw [hp]
    rfl
  refine ⟨hc, hu, rfl, ?_⟩
  intro e he
  rw [hc] at he
  simp only [Except.error.injEq] at he
  rw [← he]
  decide

/-- Witness for C10: an empty title with no credential supplied yields 422,
not 401. -/
theorem c10_validation_precedes_auth_witness :
    create_announcement ["alice"] ⟨[], 0⟩ ⟨"", "m", none, ⟨2099, 1, 1⟩⟩ none
        ⟨2026, 10, 12⟩ = (.error .invalidInput, ⟨[], 0⟩) := by
  exact (c10_validation_precedes_auth ["alice"] ⟨[], 0⟩ ⟨"", "m", none, ⟨2099, 1, 1⟩⟩
    ⟨2026, 10, 12⟩ "y" (by decide) none).1

theorem create_auth_error (teachers : List String) (store : Store)
    (p : AnnouncementPayload) (username : Option String) (today : Date)
    (e : ApiError) (hp : payloadValid p = true)
    (hr : _require_teacher teachers username = .error e) :
    create_announcement teachers store p username today = (.error e, store) := by
  unfold create_announcement
  rw [hp, hr]
  rfl

theorem update_auth_error (teachers : List String) (store : Store) (aid : String)
    (p : AnnouncementPayload) (username : Option String) (today : Date)
    (e : ApiError) (hp : payloadValid p = true)
    (hr : _require_teacher teachers username = .error e) :
    update_announcement teachers store aid p username today = (.error e, store) := by
  unfold update_announcement
  rw [hp, hr]
  rfl

theorem delete_auth_error (teachers : List String) (store : Store) (aid : String)
    (username : Option String) (e : ApiError)
    (hr : _require_teacher teachers username = .error e) :
    delete_announcement teachers store aid username = (.error e, store) := by
  unfold delete_announcement
  rw [hr]

/-- C2 counterexample: with no identity supplied but an invalid payload (empty
title), create fails with 422 `InvalidInput`, not with HTTP 401 — body
validation runs before the credential check. -/
theorem c2_counterexample :
    (create_announcement ["alice"] ⟨[], 0⟩ ⟨"", "m", none, ⟨2099, 1, 1⟩⟩ none
        ⟨2026, 10, 12⟩).fst = .error .invalidInput ∧
      ApiError.invalidInput.status = 422 := by
  decide

/-- C2 (amended): for create and update on payloads that pass validation, and
for every delete: an absent (or empty, which the code treats as absent)
`teacher_username` fails with `Unauthenticated`, a supplied username not in
the teacher directory fails with `Unauthorized`, both carrying HTTP 401, and
in both cases the store is returned unmodified. -/
theorem c2_auth_401 (teachers : List String) (store : Store)
    (p : AnnouncementPayload) (username : Option String) (today : Date)
    (aid : String) (hp : payloadValid p = true) :
    ((username = none ∨ username = some "") →
      create_announcement teachers store p username today =
          (.error .unauthenticated, store) ∧
        update_announcement teachers store aid p username today =
          (.error .unauthenticated, store) ∧
        delete_announcement teachers store aid username =
          (.error .unauthenticated, store)) ∧
      (∀ u, username = some u → u ≠ "" → teachers.contains u = false →
        create_announcement teachers store p username today =
            (.error .unauthorized, store) ∧
          update_announcement teachers store aid p username today =
            (.error .unauthorized, store) ∧
          delete_announcement teachers store aid username =
            (.error .unauthorized, store)) ∧
      ApiError.unauthenticated.status = 401 ∧ ApiError.unauthorized.status = 401 := by
  refine ⟨?_, ?_, rfl, rfl⟩
  · intro h
    have hr : _require_teacher teachers username = .error .unauthenticated := by
      rcases h with h | h <;> subst h <;> simp [_require_teacher]
    exact ⟨create_auth_error _ _ _ _ _ _ hp hr, update_auth_error _ _ _ _ _ _ _ hp hr,
      delete_auth_error _ _ _ _ _ hr⟩
  · intro u hu hne hcon
    subst hu
    have hr : _require_teacher teachers (some u) = .error .unauthorized := by
      have hstep : _require_teacher teachers (some u) =
          if u = "" then .error .unauthenticated
          else if teachers.contains u then .ok () else .error .unauthorized := rfl
      rw [hstep, if_neg hne, hcon]
      rfl
    exact ⟨create_auth_error _ _ _ _ _ _ hp hr, update_auth_error _ _ _ _ _ _ _ hp hr,
      delete_auth_error _ _ _ _ _ hr⟩

/-- Witness for C2 (amended): an unknown teacher "bob" is rejected with
`Unauthorized` on create. -/
theorem c2_auth_401_witness :
    create_announcement ["alice"] ⟨[], 0⟩ ⟨"Exam", "m", none, ⟨2099, 1, 1⟩⟩
        (some "bob") ⟨2026, 10, 12⟩ = (.error .unauthorized, ⟨[], 0⟩) := by
  exact ((c2_auth_401 ["alice"] ⟨[], 0⟩ ⟨"Exam", "m", none, ⟨2099, 1, 1⟩⟩
    (some "bob") ⟨2026, 10, 12⟩ "z" (by decide)).2.1 "bob" rfl (by decide)
    (by decide)).1

theorem mem_orderedInsert (x d : StoredDoc) (l : List StoredDoc) :
    x ∈ orderedInsert d l ↔ x = d ∨ x ∈ l := by
  induction l with
  | nil => simp [orderedInsert]
  | cons e es ih =>
    simp only [orderedInsert]
    by_cases h : endDateLe d e = true
    · simp [h]
    · simp only [Bool.not_eq_true] at h
      simp only [h, Bool.false_eq_true, if_false, List.mem_cons, ih]
      tauto

theorem mem_sortByEndDate (x : StoredDoc) (l : List StoredDoc) :
    x ∈ sortByEndDate l ↔ x ∈ l := by
  induction l with
  | nil => simp [sortByEndDate]
  | cons d ds ih => simp [sortByEndDate, mem_orderedInsert, ih]

/-- C6: with `include_expired=true` the list query is empty, so every stored
announcement is returned whatever its dates, and the default listing is a
subset of it. -/
theorem c6_include_expired_superset (store : Store) (include_future : Bool)
    (today : Date) :
    (∀ doc, doc ∈ list_docs store true include_future today ↔
        doc ∈ store.announcements) ∧
      ∀ doc, doc ∈ list_docs store false false today →
        doc ∈ list_docs store true false today := by
  have hall : ∀ (iF : Bool) doc, doc ∈ list_docs store true iF today ↔
      doc ∈ store.announcements := by
    intro iF doc
    unfold list_docs
    rw [mem_sortByEndDate, List.mem_filter]
    simp [listFilter]
  refine ⟨hall include_future, ?_⟩
  intro doc h
  rw [hall]
  unfold list_docs at h
  rw [mem_sortByEndDate, List.mem_filter] at h
  exact h.1

/-- Witness for C6: an announcement expired long before today is returned by
`include_expired=true`. -/
theorem c6_include_expired_superset_witness :
    (⟨3, some "t", some "m", BsonVal.null, BsonVal.str "2020-01-01"⟩ : StoredDoc) ∈
      list_docs ⟨[⟨3, some "t", some "m", BsonVal.null, BsonVal.str "2020-01-01"⟩], 9⟩
        true false ⟨2026, 10, 12⟩ := by
  exact ((c6_include_expired_superset
    ⟨[⟨3, some "t", some "m", BsonVal.null, BsonVal.str "2020-01-01"⟩], 9⟩ false
    ⟨2026, 10, 12⟩).1 ⟨3, some "t", some "m", BsonVal.null,
    BsonVal.str "2020-01-01"⟩).mpr (by decide)

theorem require_teacher_ok (teachers : List String) (u : String) (hne : u ≠ "")
    (hmem : teachers.contains u = true) :
    _require_teacher teachers (some u) = .ok () := by
  have hstep : _require_teacher teachers (some u) =
      if u = "" then .error .unauthenticated
      else if teachers.contains u then .ok () else .error .unauthorized := rfl
  rw [hstep, if_neg hne, hmem]
  rfl

theorem findOneAndUpdate_fst_none (docs : List StoredDoc) (oid : Nat)
    (ser : SerializedPayload) :
    (findOneAndUpdate docs oid ser).fst = none ↔ ∀ d ∈ docs, d.oid ≠ oid := by
  induction docs with
  | nil => simp [findOneAndUpdate]
  | cons d ds ih =>
    simp only [findOneAndUpdate]
    by_cases h : d.oid = oid
    · simp [h]
    · simp [h, ih]

theorem deleteOne_fst_false (docs : List StoredDoc) (oid : Nat) :
    (deleteOne docs oid).fst = false ↔ ∀ d ∈ docs, d.oid ≠ oid := by
  induction docs with
  | nil => simp [deleteOne]
  | cons d ds ih =>
    simp only [deleteOne]
    by_cases h : d.oid = oid
    · simp [h]
    · simp [h, ih]

theorem deleteOne_snd_not_mem (docs : List StoredDoc) (oid : Nat)
    (hu : docs.Pairwise (fun a b => a.oid ≠ b.oid)) :
    ∀ d ∈ (deleteOne docs oid).snd, d.oid ≠ oid := by
  induction docs with
  | nil => simp [deleteOne]
  | cons d ds ih =>
    rw [List.pairwise_cons] at hu
    simp only [deleteOne]
    by_cases h : d.oid = oid
    · simp only [h, if_true]
      intro e he hc
      exact hu.1 e he (by rw [h, hc])
    · simp only [h, if_false]
      intro e he
      rcases List.mem_cons.mp he with he | he
      · rw [he]; exact h
      · exact ih hu.2 e he

/-- C5: with a validation-passing payload and an existing teacher, update and
delete fail with `NotFound` (HTTP 404) exactly when the identifier fails to
parse as an ObjectId or no stored document carries it; in particular a delete
of a nonexistent identifier fails, and after a successful delete a second
delete of the same identifier fails with `NotFound`. -/
theorem c5_notfound_iff (teachers : List String) (store : Store) (aid : String)
    (p : AnnouncementPayload) (u : String) (today : Date)
    (hp : payloadValid p = true) (hne : u ≠ "") (hmem : teachers.contains u = true)
    (huniq : store.announcements.Pairwise (fun a b => a.oid ≠ b.oid)) :
    ((update_announcement teachers store aid p (some u) today).fst =
        .error .notFound ↔
      ∀ oid, parseObjectId aid = some oid →
        ∀ d ∈ store.announcements, d.oid ≠ oid) ∧
    ((delete_announcement teachers store aid (some u)).fst = .error .notFound ↔
      ∀ oid, parseObjectId aid = some oid →
        ∀ d ∈ store.announcements, d.oid ≠ oid) ∧
    (∀ st2, delete_announcement teachers store aid (some u) = (.ok (), st2) →
      (delete_announcement teachers st2 aid (some u)).fst = .error .notFound) ∧
    ApiError.notFound.status = 404 := by
  have hr := require_teacher_ok teachers u hne hmem
  have hupdNone : parseObjectId aid = none →
      update_announcement teachers store aid p (some u) today =
        (.error .notFound, store) := by
    intro h
    unfold update_announcement
    rw [hp, hr, h]
    rfl
  have hupdSome : ∀ oid, parseObjectId aid = some oid →
      update_announcement teachers store aid p (some u) today =
        (match (findOneAndUpdate store.announcements oid (_serialize_payload p)).fst with
         | none => (.error .notFound, store)
         | some updated =>
           (.ok (_doc_to_response today updated),
             ⟨(findOneAndUpdate store.announcements oid (_serialize_payload p)).snd,
               store.nextOid⟩)) := by
    intro oid h
    unfold update_announcement
    rw [hp, hr, h]
    rfl
  have hdelNone : ∀ st : Store, parseObjectId aid = none →
      delete_announcement teachers st aid (some u) = (.error .notFound, st) := by
    intro st h
    unfold delete_announcement
    rw [hr, h]
  have hdelSome : ∀ (st : Store) (oid : Nat), parseObjectId aid = some oid →
      delete_announcement teachers st aid (some u) =
        (if (deleteOne st.announcements oid).fst then
          (.ok (), ⟨(deleteOne st.announcements oid).snd, st.nextOid⟩)
        else (.error .notFound, st)) := by
    intro st oid h
    unfold delete_announcement
    rw [hr, h]
  refine ⟨?_, ?_, ?_, rfl⟩
  · cases hpo : parseObjectId aid with
    | none =>
      rw [hupdNone hpo]
      simp [hpo]
    | some oid =>
      rw [hupdSome oid hpo]
      cases hfu : (findOneAndUpdate store.announcements oid (_serialize_payload p)).fst with
      | none =>
        have hall := (findOneAndUpdate_fst_none store.announcements oid
          (_serialize_payload p)).mp hfu
        simp only [hpo, Option.some.injEq]
        constructor
        · intro _ oid2 he
          rw [← he]
          exact hall
        · intro _
          trivial
      | some updated =>
        have hne2 : ¬ (findOneAndUpdate store.announcements oid
            (_serialize_payload p)).fst = none := by
          rw [hfu]
          simp
        simp only [hpo, Option.some.injEq]
        constructor
        · intro hcontra
          exact absurd hcontra (by simp)
        · intro hall
          exact absurd ((findOneAndUpdate_fst_none store.announcements oid
            (_serialize_payload p)).mpr (hall oid rfl)) hne2
  · cases hpo : parseObjectId aid with
    | none =>
      rw [hdelNone store hpo]
      simp [hpo]
    | some oid =>
      rw [hdelSome store oid hpo]
      cases hflag : (deleteOne store.announcements oid).fst with
      | false =>
        have hall := (deleteOne_fst_false store.announcements oid).mp hflag
        simp only [hpo, Option.some.injEq]
        constructor
        · intro _ oid2 he
          rw [← he]
          exact hall
        · intro _
          simp
      | true =>
        have hne2 : ¬ (deleteOne store.announcements oid).fst = false := by
          rw [hflag]
          simp
        simp only [hpo, Option.some.injEq]
        constructor
        · intro hcontra
          exact absurd hcontra (by simp)
        · intro hall
          exact absurd ((deleteOne_fst_false store.announcements oid).mpr
            (hall oid rfl)) hne2
  · intro st2 hdel2
    cases hpo : parseObjectId aid with
    | none =>
      rw [hdelNone store hpo] at hdel2
      simp at hdel2
    | some oid =>
      rw [hdelSome store oid hpo] at hdel2
      cases hflag : (deleteOne store.announcements oid).fst with
      | false =>
        rw [hflag] at hdel2
        simp at hdel2
      | true =>
        have hst2 : st2 = ⟨(deleteOne store.announcements oid).snd, store.nextOid⟩ := by
          rw [hflag] at hdel2
          have h2 := congrArg Prod.snd hdel2
          simpa using h2.symm
        rw [hdelSome st2 oid hpo]
        have hflag2 : (deleteOne st2.announcements oid).fst = false := by
          apply (deleteOne_fst_false _ _).mpr
          intro d hd
          apply deleteOne_snd_not_mem store.announcements oid huniq
          rw [hst2] at hd
          exact hd
        rw [hflag2]
        simp

/-- Witness for C5: deleting a syntactically invalid identifier and deleting
twice. -/
theorem c5_notfound_iff_witness :
    (delete_announcement ["alice"]
        ⟨[⟨3, some "t", some "m", BsonVal.null, BsonVal.str "2099-01-01"⟩], 9⟩
        "zzz" (some "alice")).fst = .error .notFound := by
  exact ((c5_notfound_iff ["alice"]
    ⟨[⟨3, some "t", some "m", BsonVal.null, BsonVal.str "2099-01-01"⟩], 9⟩ "zzz"
    ⟨"Exam", "m", none, ⟨2099, 1, 1⟩⟩ "alice" ⟨2026, 10, 12⟩ (by decide) (by decide)
    (by decide) (by decide)).2.1).mpr (by decide)

theorem length_dropWhile_le (p : Char → Bool) (l : List Char) :
    (l.dropWhile p).length ≤ l.length := by
  induction l with
  | nil => simp
  | cons a as ih =>
    by_cases h : p a = true
    · rw [List.dropWhile_cons_of_pos h]
      exact le_trans ih (Nat.le_succ _)
    · rw [List.dropWhile_cons_of_neg (by simp [h])]

theorem mem_dropWhile_of_not (p : Char → Bool) (l : List Char) (x : Char)
    (hx : x ∈ l) (hpx : p x = false) : x ∈ l.dropWhile p := by
  induction l with
  | nil => cases hx
  | cons a as ih =>
    by_cases h : p a = true
    · rw [List.dropWhile_cons_of_pos h]
      rcases List.mem_cons.mp hx with he | he
      · subst he
        rw [h] at hpx
        cases hpx
      · exact ih he
    · rw [List.dropWhile_cons_of_neg (by simp [h])]
      exact hx

/-- Trimming never lengthens a string. -/
theorem pyStrip_length_le (s : String) : (pyStrip s).length ≤ s.length := by
  have h1 := length_dropWhile_le isSpaceChar s.data
  have h2 := length_dropWhile_le isSpaceChar (s.data.dropWhile isSpaceChar).reverse
  unfold pyStrip
  simp only [String.length, List.length_reverse] at h1 h2 ⊢
  omega

/-- Trimming keeps a string nonempty when it has a non-whitespace character. -/
theorem pyStrip_pos (s : String) (h : ∃ c ∈ s.data, isSpaceChar c = false) :
    1 ≤ (pyStrip s).length := by
  obtain ⟨c, hc, hcs⟩ := h
  have h1 : c ∈ s.data.dropWhile isSpaceChar := mem_dropWhile_of_not _ _ _ hc hcs
  have h2 : c ∈ (s.data.dropWhile isSpaceChar).reverse := List.mem_reverse.mpr h1
  have h3 := mem_dropWhile_of_not isSpaceChar (s.data.dropWhile isSpaceChar).reverse c h2 hcs
  have h4 := List.length_pos.mpr (List.ne_nil_of_mem h3)
  unfold pyStrip
  simp only [String.length, List.length_reverse]
  omega

theorem mem_findOneAndUpdate_snd (docs : List StoredDoc) (oid : Nat)
    (ser : SerializedPayload) :
    ∀ d ∈ (findOneAndUpdate docs oid ser).snd, d ∈ docs ∨ ∃ d0, d = applySet ser d0 := by
  induction docs with
  | nil => simp [findOneAndUpdate]
  | cons e es ih =>
    simp only [findOneAndUpdate]
    by_cases h : e.oid = oid
    · simp only [h, if_true]
      intro d hd
      rcases List.mem_cons.mp hd with he | he
      · exact Or.inr ⟨e, he⟩
      · exact Or.inl (List.mem_cons_of_mem _ he)
    · simp only [h, if_false]
      intro d hd
      rcases List.mem_cons.mp hd with he | he
      · exact Or.inl (he ▸ List.mem_cons_self _ _)
      · rcases ih d he with hin | hap
        · exact Or.inl (List.mem_cons_of_mem _ hin)
        · exact Or.inr hap

/-- C4 counterexample: a single-space title passes validation (length 1), so
create succeeds, but the stored document's title is trimmed to the empty
string — 0 characters, outside the claimed 1–120 range. -/
theorem c4_counterexample :
    (∃ r, (create_announcement ["alice"] ⟨[], 0⟩ ⟨" ", "hello", none, ⟨2099, 1, 1⟩⟩
        (some "alice") ⟨2026, 10, 12⟩).fst = .ok r) ∧
      (create_announcement ["alice"] ⟨[], 0⟩ ⟨" ", "hello", none, ⟨2099, 1, 1⟩⟩
          (some "alice") ⟨2026, 10, 12⟩).snd.announcements =
        [⟨0, some "", some "hello", BsonVal.null, BsonVal.str "2099-01-01"⟩] ∧
      ¬ 1 ≤ ("" : String).length := by
  refine ⟨⟨⟨oidToString 0, "", "hello", none, ⟨2099, 1, 1⟩⟩, by decide⟩, by decide, by decide⟩

/-- C4 (amended): every document a successful create or update writes has a
trimmed title of at most 120 characters and a trimmed message of at most 800
characters; the 1-character lower bound additionally holds whenever the
submitted field contains some non-whitespace character (an all-whitespace
title or message is stored as the empty string). -/
theorem c4_stored_length_bounds (teachers : List String) (store : Store)
    (p : AnnouncementPayload) (username : Option String) (today : Date)
    (aid : String) (hp : payloadValid p = true) :
    (∀ d ∈ (create_announcement teachers store p username today).snd.announcements,
        d ∈ store.announcements ∨
          ∃ t m, d.title = some t ∧ d.message = some m ∧ t.length ≤ 120 ∧
            m.length ≤ 800 ∧
            ((∃ c ∈ p.title.data, isSpaceChar c = false) → 1 ≤ t.length) ∧
            ((∃ c ∈ p.message.data, isSpaceChar c = false) → 1 ≤ m.length)) ∧
      ∀ d ∈ (update_announcement teachers store aid p username today).snd.announcements,
        d ∈ store.announcements ∨
          ∃ t m, d.title = some t ∧ d.message = some m ∧ t.length ≤ 120 ∧
            m.length ≤ 800 ∧
            ((∃ c ∈ p.title.data, isSpaceChar c = false) → 1 ≤ t.length) ∧
            ((∃ c ∈ p.message.data, isSpaceChar c = false) → 1 ≤ m.length) := by
  have hb : p.title.length ≤ 120 ∧ p.message.length ≤ 800 := by
    unfold payloadValid at hp
    simp only [Bool.and_eq_true, decide_eq_true_eq] at hp
    exact ⟨hp.1.1.1.2, hp.1.2⟩
  have hgood : ∀ d : StoredDoc,
      d.title = some (pyStrip p.title) → d.message = some (pyStrip p.message) →
      ∃ t m, d.title = some t ∧ d.message = some m ∧ t.length ≤ 120 ∧
        m.length ≤ 800 ∧
        ((∃ c ∈ p.title.data, isSpaceChar c = false) → 1 ≤ t.length) ∧
        ((∃ c ∈ p.message.data, isSpaceChar c = false) → 1 ≤ m.length) := by
    intro d ht hm
    exact ⟨pyStrip p.title, pyStrip p.message, ht, hm,
      le_trans (pyStrip_length_le _) hb.1, le_trans (pyStrip_length_le _) hb.2,
      fun hx => pyStrip_pos _ hx, fun hx => pyStrip_pos _ hx⟩
  constructor
  · cases hreq : _require_teacher teachers username with
    | error e =>
      rw [create_auth_error teachers store p username today e hp hreq]
      intro d hd
      exact Or.inl hd
    | ok a =>
      have hsnd : (create_announcement teachers store p username today).snd =
          ⟨store.announcements ++ [insertedDoc (_serialize_payload p) store.nextOid],
            store.nextOid + 1⟩ := by
        unfold create_announcement
        rw [hreq, if_neg (by rw [hp]; decide)]
        split
        · rename_i e heq
          exact absurd heq (by simp)
        · split <;> rfl
      rw [hsnd]
      intro d hd
      rcases List.mem_append.mp hd with hin | hin
      · exact Or.inl hin
      · have hd2 : d = insertedDoc (_serialize_payload p) store.nextOid := by
          simpa using hin
        exact Or.inr (hgood d (by rw [hd2]; rfl) (by rw [hd2]; rfl))
  · cases hreq : _require_teacher teachers username with
    | error e =>
      rw [update_auth_error teachers store aid p username today e hp hreq]
      intro d hd
      exact Or.inl hd
    | ok a =>
      cases hpo : parseObjectId aid with
      | none =>
        have hsnd : update_announcement teachers store aid p username today =
            (.error .notFound, store) := by
          unfold update_announcement
          rw [hp, hreq, hpo]
          rfl
        rw [hsnd]
        intro d hd
        exact Or.inl hd
      | some oid =>
        cases hfu : (findOneAndUpdate store.announcements oid (_serialize_payload p)).fst with
        | none =>
          have hsnd : update_announcement teachers store aid p username today =
              (.error .notFound, store) := by
            unfold update_announcement
            rw [hp, hreq, hpo]
            have hstep : (match (findOneAndUpdate store.announcements oid
                (_serialize_payload p)).fst with
              | none => ((.error .notFound : Except ApiError AnnouncementResponse), store)
              | some updated =>
                (.ok (_doc_to_response today updated),
                  ⟨(findOneAndUpdate store.announcements oid (_serialize_payload p)).snd,
                    store.nextOid⟩)) =
                ((.error .notFound : Except ApiError AnnouncementResponse), store) := by
              rw [hfu]
            exact hstep
          rw [hsnd]
          intro d hd
          exact Or.inl hd
        | some updated =>
          have hsnd : update_announcement teachers store aid p username today =
              (.ok (_doc_to_response today updated),
                ⟨(findOneAndUpdate store.announcements oid (_serialize_payload p)).snd,
                  store.nextOid⟩) := by
            unfold update_announcement
            rw [hp, hreq, hpo]
            have hstep : (match (findOneAndUpdate store.announcements oid
                (_serialize_payload p)).fst with
              | none => ((.error .notFound : Except ApiError AnnouncementResponse), store)
              | some updated =>
                (.ok (_doc_to_response today updated),
                  ⟨(findOneAndUpdate store.announcements oid (_serialize_payload p)).snd,
                    store.nextOid⟩)) =
                (.ok (_doc_to_response today updated),
                  ⟨(findOneAndUpdate store.announcements oid (_serialize_payload p)).snd,
                    store.nextOid⟩) := by
              rw [hfu]
            exact hstep
          rw [hsnd]
          intro d hd
          rcases mem_findOneAndUpdate_snd store.announcements oid (_serialize_payload p)
            d hd with hin | ⟨d0, hd0⟩
          · exact Or.inl hin
          · exact Or.inr (hgood d (by rw [hd0]; rfl) (by rw [hd0]; rfl))

/-- Witness for C4 (amended), applied at the counterexample's input: the one
written document satisfies the amended bounds. -/
theorem c4_stored_length_bounds_witness :
    (⟨0, some "", some "hello", BsonVal.null, BsonVal.str "2099-01-01"⟩ : StoredDoc) ∈
      (⟨[], 0⟩ : Store).announcements ∨
      ∃ t m, (⟨0, some "", some "hello", BsonVal.null,
          BsonVal.str "2099-01-01"⟩ : StoredDoc).title = some t ∧
        (⟨0, some "", some "hello", BsonVal.null,
          BsonVal.str "2099-01-01"⟩ : StoredDoc).message = some m ∧
        t.length ≤ 120 ∧ m.length ≤ 800 ∧
        ((∃ c ∈ (" " : String).data, isSpaceChar c = false) → 1 ≤ t.length) ∧
        ((∃ c ∈ ("hello" : String).data, isSpaceChar c = false) → 1 ≤ m.length) := by
  exact (c4_stored_length_bounds ["alice"] ⟨[], 0⟩ ⟨" ", "hello", none, ⟨2099, 1, 1⟩⟩
    (some "alice") ⟨2026, 10, 12⟩ "w" (by decide)).1
    ⟨0, some "", some "hello", BsonVal.null, BsonVal.str "2099-01-01"⟩ (by decide)

theorem toIsoData_length (d : Date) : d.toIsoData.length = 10 := by
  unfold Date.toIsoData
  simp [padDigits_length]

theorem toIso_ne_empty (d : Date) : d.toIso ≠ "" := by
  intro h
  have h2 : d.toIsoData = [] := congrArg String.data h
  have h3 := toIsoData_length d
  rw [h2] at h3
  cases h3

theorem findOne_append_fresh (docs : List StoredDoc) (doc : StoredDoc) (oid : Nat)
    (hoid : doc.oid = oid) (hfresh : ∀ d ∈ docs, d.oid ≠ oid) :
    findOne (docs ++ [doc]) oid = some doc := by
  induction docs with
  | nil =>
    unfold findOne
    simp [List.find?, hoid]
  | cons e es ih =>
    have hne : ¬ (e.oid == oid) = true := by
      simp [hfresh e (List.mem_cons_self e es)]
    unfold findOne
    rw [List.cons_append]
    have hstep : List.find? (fun d => d.oid == oid) (e :: (es ++ [doc])) =
        List.find? (fun d => d.oid == oid) (es ++ [doc]) :=
      List.find?_cons_of_neg _ hne
    rw [hstep]
    exact ih fun d hd => hfresh d (List.mem_cons_of_mem _ hd)

/-- Reading back a freshly serialized payload recovers the payload dates. -/
theorem parse_serialized_start (p : AnnouncementPayload)
    (hstart : ∀ s, p.start_date = some s → s.valid) :
    _parse_optional_date (_serialize_payload p).start_date = p.start_date := by
  cases hs : p.start_date with
  | none =>
    unfold _serialize_payload
    rw [hs]
    rfl
  | some s =>
    have hv := hstart s hs
    unfold _serialize_payload
    rw [hs]
    show _parse_optional_date (BsonVal.str s.toIso) = some s
    show (if s.toIso = "" then none else parseIsoDate s.toIso) = some s
    rw [if_neg (toIso_ne_empty s), parseIsoDate_toIso s hv]

theorem parse_serialized_end (p : AnnouncementPayload) (hend : p.end_date.valid) :
    _parse_optional_date (_serialize_payload p).end_date = some p.end_date := by
  unfold _serialize_payload
  show _parse_optional_date (BsonVal.str p.end_date.toIso) = some p.end_date
  show (if p.end_date.toIso = "" then none else parseIsoDate p.end_date.toIso) =
    some p.end_date
  rw [if_neg (toIso_ne_empty p.end_date), parseIsoDate_toIso p.end_date hend]

/-- C8: a valid payload submitted by an existing teacher creates successfully;
the response carries the store-assigned identifier, and its dates — serialized
to ISO strings and parsed back — equal the payload's dates exactly. -/
theorem c8_create_roundtrip (teachers : List String) (store : Store)
    (p : AnnouncementPayload) (u : String) (today : Date)
    (hp : payloadValid p = true) (hend : p.end_date.valid)
    (hstart : ∀ s, p.start_date = some s → s.valid)
    (hu : u ≠ "") (hmem : teachers.contains u = true)
    (hfresh : ∀ d ∈ store.announcements, d.oid ≠ store.nextOid) :
    ∃ resp st2, create_announcement teachers store p (some u) today = (.ok resp, st2) ∧
      resp.id = oidToString store.nextOid ∧
      resp.start_date = p.start_date ∧ resp.end_date = p.end_date := by
  have hr := require_teacher_ok teachers u hu hmem
  have hfo := findOne_append_fresh store.announcements
    (insertedDoc (_serialize_payload p) store.nextOid) store.nextOid rfl hfresh
  have heq : create_announcement teachers store p (some u) today =
      (.ok (_doc_to_response today (insertedDoc (_serialize_payload p) store.nextOid)),
        ⟨store.announcements ++ [insertedDoc (_serialize_payload p) store.nextOid],
          store.nextOid + 1⟩) := by
    unfold create_announcement
    rw [hr, if_neg (by rw [hp]; decide), hfo]
  refine ⟨_, _, heq, rfl, ?_, ?_⟩
  · show _parse_optional_date (_serialize_payload p).start_date = p.start_date
    exact parse_serialized_start p hstart
  · show (_parse_optional_date (_serialize_payload p).end_date).getD today = p.end_date
    rw [parse_serialized_end p hend]
    rfl

/-- Witness for C8 at a concrete payload with both dates present. -/
theorem c8_create_roundtrip_witness :
    ∃ resp st2, create_announcement ["alice"] ⟨[], 4⟩
        ⟨"Exam", "Midterm Friday", some ⟨2026, 2, 28⟩, ⟨2099, 1, 1⟩⟩
        (some "alice") ⟨2026, 10, 12⟩ = (.ok resp, st2) ∧
      resp.id = oidToString 4 ∧
      resp.start_date = some ⟨2026, 2, 28⟩ ∧ resp.end_date = ⟨2099, 1, 1⟩ := by
  exact c8_create_roundtrip ["alice"] ⟨[], 4⟩
    ⟨"Exam", "Midterm Friday", some ⟨2026, 2, 28⟩, ⟨2099, 1, 1⟩⟩ "alice" ⟨2026, 10, 12⟩
    (by decide) (by decide) (by decide) (by decide) (by decide) (by decide)

/-- The default find filter, evaluated on a well-formed stored announcement,
is the date-level condition of the spec. -/
theorem listFilter_toDoc_default (a : Announcement) (today : Date)
    (hv : a.datesValid) (ht : today.valid) :
    listFilter false false today.toIso a.toDoc =
      (Date.leB today a.end_date &&
        (match a.start_date with
         | none => true
         | some s => Date.leB s today)) := by
  unfold listFilter matchGteStr matchStartOr Announcement.toDoc
  cases hs : a.start_date with
  | none =>
    show (lexLe today.toIsoData a.end_date.toIsoData && true) = _
    rw [Bool.and_true, Bool.and_true]
    exact lexLe_toIsoData today a.end_date ht (Announcement.datesValid_end hv)
  | some s =>
    show (lexLe today.toIsoData a.end_date.toIsoData &&
      lexLe s.toIsoData today.toIsoData) = _
    rw [lexLe_toIsoData today a.end_date ht (Announcement.datesValid_end hv),
      lexLe_toIsoData s today (Announcement.datesValid_start hv s hs) ht]

/-- The `include_future` find filter on a well-formed stored announcement
keeps only the end-date lower bound. -/
theorem listFilter_toDoc_future (a : Announcement) (today : Date)
    (hv : a.datesValid) (ht : today.valid) :
    listFilter false true today.toIso a.toDoc = Date.leB today a.end_date := by
  unfold listFilter matchGteStr Announcement.toDoc
  show lexLe today.toIsoData a.end_date.toIsoData = _
  exact lexLe_toIsoData today a.end_date ht (Announcement.datesValid_end hv)

/-- C1: with both flags false, the listing returns exactly the stored
announcements whose `end_date` is on or after today and whose `start_date` is
absent or on or before today; in particular it never returns one expired
strictly before today, nor one starting strictly after today. -/
theorem c1_list_default (anns : List Announcement) (nextOid : Nat) (today : Date)
    (hv : ∀ a ∈ anns, a.datesValid) (ht : today.valid) :
    ∀ doc, doc ∈ list_docs ⟨anns.map Announcement.toDoc, nextOid⟩ false false today ↔
      ∃ a ∈ anns, doc = a.toDoc ∧ Date.leB today a.end_date = true ∧
        (a.start_date = none ∨
          ∃ s, a.start_date = some s ∧ Date.leB s today = true) := by
  intro doc
  unfold list_docs
  rw [mem_sortByEndDate, List.mem_filter]
  constructor
  · rintro ⟨hmem, hfil⟩
    obtain ⟨a, ha, rfl⟩ := List.mem_map.mp hmem
    rw [listFilter_toDoc_default a today (hv a ha) ht, Bool.and_eq_true] at hfil
    obtain ⟨hend, hstart⟩ := hfil
    refine ⟨a, ha, rfl, hend, ?_⟩
    cases hs : a.start_date with
    | none => exact Or.inl rfl
    | some s =>
      rw [hs] at hstart
      exact Or.inr ⟨s, rfl, hstart⟩
  · rintro ⟨a, ha, rfl, hend, hstart⟩
    refine ⟨List.mem_map_of_mem _ ha, ?_⟩
    rw [listFilter_toDoc_default a today (hv a ha) ht, hend, Bool.true_and]
    rcases hstart with hs | ⟨s, hs, hle⟩
    · rw [hs]
    · rw [hs]
      exact hle

/-- Witness for C1: of one active and one expired announcement, the default
listing contains exactly the active one. -/
theorem c1_list_default_witness :
    ((⟨1, "a", "m", none, ⟨2099, 1, 1⟩⟩ : Announcement).toDoc ∈
      list_docs ⟨[(⟨1, "a", "m", none, ⟨2099, 1, 1⟩⟩ : Announcement),
        ⟨2, "b", "n", none, ⟨2020, 1, 1⟩⟩].map Announcement.toDoc, 7⟩
        false false ⟨2026, 10, 12⟩) ∧
      ¬ ((⟨2, "b", "n", none, ⟨2020, 1, 1⟩⟩ : Announcement).toDoc ∈
        list_docs ⟨[(⟨1, "a", "m", none, ⟨2099, 1, 1⟩⟩ : Announcement),
          ⟨2, "b", "n", none, ⟨2020, 1, 1⟩⟩].map Announcement.toDoc, 7⟩
          false false ⟨2026, 10, 12⟩) := by
  constructor
  · exact (c1_list_default [⟨1, "a", "m", none, ⟨2099, 1, 1⟩⟩,
      ⟨2, "b", "n", none, ⟨2020, 1, 1⟩⟩] 7 ⟨2026, 10, 12⟩ (by decide) (by decide)
      (⟨1, "a", "m", none, ⟨2099, 1, 1⟩⟩ : Announcement).toDoc).mpr
      ⟨⟨1, "a", "m", none, ⟨2099, 1, 1⟩⟩, by decide, rfl, by decide, Or.inl rfl⟩
  · intro hmem
    have h := (c1_list_default [⟨1, "a", "m", none, ⟨2099, 1, 1⟩⟩,
      ⟨2, "b", "n", none, ⟨2020, 1, 1⟩⟩] 7 ⟨2026, 10, 12⟩ (by decide) (by decide)
      (⟨2, "b", "n", none, ⟨2020, 1, 1⟩⟩ : Announcement).toDoc).mp hmem
    revert h
    decide

/-- C7: with `include_future=true` and `include_expired=false`, the listing
returns exactly the stored announcements whose `end_date` is on or after
today, with no condition on `start_date`. -/
theorem c7_list_include_future (anns : List Announcement) (nextOid : Nat)
    (today : Date) (hv : ∀ a ∈ anns, a.datesValid) (ht : today.valid) :
    ∀ doc, doc ∈ list_docs ⟨anns.map Announcement.toDoc, nextOid⟩ false true today ↔
      ∃ a ∈ anns, doc = a.toDoc ∧ Date.leB today a.end_date = true := by
  intro doc
  unfold list_docs
  rw [mem_sortByEndDate, List.mem_filter]
  constructor
  · rintro ⟨hmem, hfil⟩
    obtain ⟨a, ha, rfl⟩ := List.mem_map.mp hmem
    rw [listFilter_toDoc_future a today (hv a ha) ht] at hfil
    exact ⟨a, ha, rfl, hfil⟩
  · rintro ⟨a, ha, rfl, hend⟩
    exact ⟨List.mem_map_of_mem _ ha,
      by rw [listFilter_toDoc_future a today (hv a ha) ht]; exact hend⟩

/-- Witness for C7: a not-yet-started announcement appears with
`include_future=true`, an expired one still does not. -/
theorem c7_list_include_future_witness :
    ((⟨1, "a", "m", some ⟨2097, 5, 5⟩, ⟨2099, 1, 1⟩⟩ : Announcement).toDoc ∈
      list_docs ⟨[(⟨1, "a", "m", some ⟨2097, 5, 5⟩, ⟨2099, 1, 1⟩⟩ : Announcement),
        ⟨2, "b", "n", none, ⟨2020, 1, 1⟩⟩].map Announcement.toDoc, 7⟩
        false true ⟨2026, 10, 12⟩) ∧
      ¬ ((⟨2, "b", "n", none, ⟨2020, 1, 1⟩⟩ : Announcement).toDoc ∈
        list_docs ⟨[(⟨1, "a", "m", some ⟨2097, 5, 5⟩, ⟨2099, 1, 1⟩⟩ : Announcement),
          ⟨2, "b", "n", none, ⟨2020, 1, 1⟩⟩].map Announcement.toDoc, 7⟩
          false true ⟨2026, 10, 12⟩) := by
  constructor
  · exact (c7_list_include_future [⟨1, "a", "m", some ⟨2097, 5, 5⟩, ⟨2099, 1, 1⟩⟩,
      ⟨2, "b", "n", none, ⟨2020, 1, 1⟩⟩] 7 ⟨2026, 10, 12⟩ (by decide) (by decide)
      (⟨1, "a", "m", some ⟨2097, 5, 5⟩, ⟨2099, 1, 1⟩⟩ : Announcement).toDoc).mpr
      ⟨⟨1, "a", "m", some ⟨2097, 5, 5⟩, ⟨2099, 1, 1⟩⟩, by decide, rfl, by decide⟩
  · intro hmem
    have h := (c7_list_include_future [⟨1, "a", "m", some ⟨2097, 5, 5⟩, ⟨2099, 1, 1⟩⟩,
      ⟨2, "b", "n", none, ⟨2020, 1, 1⟩⟩] 7 ⟨2026, 10, 12⟩ (by decide) (by decide)
      (⟨2, "b", "n", none, ⟨2020, 1, 1⟩⟩ : Announcement).toDoc).mp hmem
    revert h
    decide

end Announcements
